import Mathlib

/-!
Shallow embedding of the daily attendance summary engine of
`summary.py` (zk-pi-attendance), together with theorems checking the
natural-language specification against it.

Conventions of the embedding:

* A `Timestamp` is a calendar day ordinal (`day`) plus a
  seconds-of-day value (`sod`).  A well-formed Python `datetime` has
  `sod < 86400`; on such values the lexicographic `datetime` order
  coincides with the order of `toSec = day * 86400 + sod`, which is
  the order used here.  Day ordinal 0 is taken to be a Monday
  (e.g. days counted from 2024-01-01), so `weekday = day % 7` with
  0 = Monday .. 6 = Sunday, matching `date.weekday()`.
* Hours are rationals; `round2` is round-half-to-even at two decimal
  places, the behaviour of Python `round(x, 2)` on exactly
  representable inputs.  Minute rounding is `roundHalfEven _ 60`,
  the behaviour of `int(round(seconds / 60))` for integer seconds.
* SQLite tables are lists of rows; the optional filters of
  `fetch_attendance_rows` / `fetch_makeup_hours` are applied as list
  filters, and Python dict lookups become last-match lookups.
-/

namespace ZkPi

attribute [local semireducible] Rat.mul Rat.inv Rat.add Rat.sub

/-- `WORK_START = time(8, 0)` as seconds of day. -/
def WORK_START : Nat := 8 * 3600

/-- `WORK_LUNCH_START = time(12, 0)` as seconds of day. -/
def WORK_LUNCH_START : Nat := 12 * 3600

/-- `WORK_AFTERNOON_START = time(13, 0)` as seconds of day. -/
def WORK_AFTERNOON_START : Nat := 13 * 3600

/-- `WORK_END = time(17, 0)` as seconds of day. -/
def WORK_END : Nat := 17 * 3600

/-- `LUNCH_BREAK_SECONDS = 3600`. -/
def LUNCH_BREAK_SECONDS : Nat := 3600

/-- A punch timestamp: calendar day ordinal plus seconds of day. -/
structure Timestamp where
  day : Nat
  sod : Nat
deriving DecidableEq

/-- Absolute seconds of a timestamp; orders timestamps like Python
`datetime` comparison does on well-formed values. -/
def Timestamp.toSec (t : Timestamp) : Nat := t.day * 86400 + t.sod

/-- One step of Python `min` over timestamps: keep the accumulator
unless the next element is strictly smaller. -/
def minFold (a b : Timestamp) : Timestamp := if b.toSec < a.toSec then b else a

/-- One step of Python `max` over timestamps: keep the accumulator
unless the next element is strictly larger. -/
def maxFold (a b : Timestamp) : Timestamp := if a.toSec < b.toSec then b else a

/-- Python `min(timestamps)` (none on the empty list). -/
def listMinTs : List Timestamp → Option Timestamp
  | [] => none
  | t :: ts => some (ts.foldl minFold t)

/-- Python `max(timestamps)` (none on the empty list). -/
def listMaxTs : List Timestamp → Option Timestamp
  | [] => none
  | t :: ts => some (ts.foldl maxFold t)

/-- Python `max(0, x)` on integers. -/
def pyMax0 (x : Int) : Int := if 0 < x then x else 0

/-- Round-half-to-even of the fraction `num / den` for `den > 0`:
the behaviour of Python `round` at integer ratios. -/
def roundHalfEven (num den : Int) : Int :=
  let q := Int.ediv num den
  let r := Int.emod num den
  if 2 * r < den then q
  else if den < 2 * r then q + 1
  else if Int.emod q 2 = 0 then q
  else q + 1

/-- Python `round(q, 2)`: round-half-to-even at two decimals. -/
def round2 (q : ℚ) : ℚ := (roundHalfEven (q.num * 100) (q.den : Int) : ℚ) / 100

/-- The record produced by `_calculate_metrics` for one
(employee, day) group. -/
structure Metrics where
  user_id : Nat
  date : Nat
  check_in : Option Timestamp
  check_out : Option Timestamp
  working_hours : Option ℚ
  late_mins : Int
  early_leave_mins : Int
deriving DecidableEq

/-- Lines 54-59 of `summary.py`: the candidate check-in of a group.
Start from the earliest punch; if its time of day is at or after
lunch start, fall back to the earliest punch strictly before lunch
start (absent when none exists). -/
def check_in_candidate (timestamps : List Timestamp) : Option Timestamp :=
  match listMinTs timestamps with
  | none => none
  | some mn =>
    if WORK_LUNCH_START ≤ mn.sod then
      listMinTs (timestamps.filter (fun u => u.sod < WORK_LUNCH_START))
    else some mn

/-- Lines 55-63 of `summary.py`: the candidate check-out of a group.
Start from the latest punch; if its time of day is before lunch
start, fall back to the latest punch at or after afternoon start
(absent when none exists). -/
def check_out_candidate (timestamps : List Timestamp) : Option Timestamp :=
  match listMaxTs timestamps with
  | none => none
  | some mx =>
    if mx.sod < WORK_LUNCH_START then
      listMaxTs (timestamps.filter (fun u => WORK_AFTERNOON_START ≤ u.sod))
    else some mx

/-- Lines 54-66 of `summary.py`: the reconciled
(check-in, check-out) pair of a group, swapping the two candidates
when both are present and check-in is later than check-out. -/
def reconcile_punches (timestamps : List Timestamp) :
    Option Timestamp × Option Timestamp :=
  match check_in_candidate timestamps, check_out_candidate timestamps with
  | some a, some b =>
    if b.toSec < a.toSec then (some b, some a) else (some a, some b)
  | a, b => (a, b)

/-- `_calculate_metrics(user_id, date_value, group)` from
`summary.py`: reconcile the punches of one employee/day group and
compute worked hours, lateness and early leave. -/
def calculate_metrics (user_id : Nat) (date_value : Nat)
    (timestamps : List Timestamp) : Metrics :=
  match timestamps with
  | [] =>
    { user_id := user_id, date := date_value,
      check_in := none, check_out := none, working_hours := none,
      late_mins := 0, early_leave_mins := 0 }
  | _ :: _ =>
    let cico := reconcile_punches timestamps
    let check_in_ts := cico.1
    let check_out_ts := cico.2
    let work_hours : Option ℚ :=
      match check_in_ts, check_out_ts with
      | some ci, some co =>
        if ci.toSec < co.toSec then
          let work_seconds : Int := (co.toSec : Int) - (ci.toSec : Int)
          let adjusted : Int :=
            if ci.sod ≤ WORK_LUNCH_START ∧ WORK_AFTERNOON_START ≤ co.sod ∧
                (6 * 3600 : Int) < work_seconds then
              work_seconds - (LUNCH_BREAK_SECONDS : Int)
            else work_seconds
          some (round2 ((pyMax0 adjusted : ℚ) / 3600))
        else none
      | _, _ => none
    let work_start_sec : Int := (date_value * 86400 + WORK_START : Nat)
    let work_end_sec : Int := (date_value * 86400 + WORK_END : Nat)
    let late_mins : Int :=
      match check_in_ts with
      | some ci => pyMax0 (roundHalfEven ((ci.toSec : Int) - work_start_sec) 60)
      | none => 0
    let early_leave_mins : Int :=
      match check_out_ts with
      | some co => pyMax0 (roundHalfEven (work_end_sec - (co.toSec : Int)) 60)
      | none => 0
    { user_id := user_id, date := date_value,
      check_in := check_in_ts, check_out := check_out_ts,
      working_hours := work_hours,
      late_mins := late_mins, early_leave_mins := early_leave_mins }

/-- One row of the attendance table (`user_id, timestamp, status`). -/
structure AttRow where
  user_id : Nat
  ts : Timestamp
  status : Nat
deriving DecidableEq

/-- One row of the users table. -/
structure UserRow where
  user_id : Nat
  name : Option String
  department : Option String
deriving DecidableEq

/-- One row of the makeup_hours table. -/
structure MakeupRow where
  user_id : Nat
  date : Nat
  hours : ℚ
  note : Option String
deriving DecidableEq

/-- The SQLite database contents that `get_daily_summary` reads. -/
structure DB where
  attendance : List AttRow
  users : List UserRow
  makeup : List MakeupRow

/-- The `SummaryFilters` dataclass. -/
structure SummaryFilters where
  user_id : Option Nat := none
  start_date : Option Nat := none
  end_date : Option Nat := none
deriving DecidableEq

/-- `fetch_attendance_rows`: attendance rows restricted by the optional
user filter and by the date portion of the timestamp against the
inclusive range.  (The SQL `ORDER BY timestamp` is dropped: every
consumer below is insensitive to the order of the fetched rows.) -/
def fetch_attendance_rows (db : DB) (f : SummaryFilters) : List AttRow :=
  db.attendance.filter (fun r =>
    (match f.user_id with | some u => r.user_id == u | none => true) &&
    (match f.start_date with | some d => decide (d ≤ r.ts.day) | none => true) &&
    (match f.end_date with | some d => decide (r.ts.day ≤ d) | none => true))

/-- `fetch_makeup_hours` before dict conversion: makeup rows restricted
by the same optional filters. -/
def fetch_makeup_list (db : DB) (f : SummaryFilters) : List MakeupRow :=
  db.makeup.filter (fun m =>
    (match f.user_id with | some u => m.user_id == u | none => true) &&
    (match f.start_date with | some d => decide (d ≤ m.date) | none => true) &&
    (match f.end_date with | some d => decide (m.date ≤ d) | none => true))

/-- The dict returned by `fetch_makeup_hours`, as a lookup keyed by
(user, date); a later row overwrites an earlier one with the same key. -/
def makeup_lookup (db : DB) (f : SummaryFilters) (u d : Nat) : Option MakeupRow :=
  (fetch_makeup_list db f).reverse.find? (fun m => m.user_id == u && m.date == d)

/-- The `users_lookup` dict of `get_daily_summary`, keyed by user id. -/
def users_lookup (db : DB) (u : Nat) : Option UserRow :=
  db.users.reverse.find? (fun r => r.user_id == u)

/-- The (employee, day) group keys produced by grouping the fetched
attendance rows, i.e. the keys of `summary_map` after the punch pass. -/
def punch_keys (db : DB) (f : SummaryFilters) : List (Nat × Nat) :=
  ((fetch_attendance_rows db f).map (fun r => (r.user_id, r.ts.day))).dedup

/-- The timestamps of one (employee, day) group. -/
def group_timestamps (db : DB) (f : SummaryFilters) (u d : Nat) : List Timestamp :=
  ((fetch_attendance_rows db f).filter
    (fun r => r.user_id == u && r.ts.day == d)).map (fun r => r.ts)

/-- The keys of the fetched makeup dict. -/
def makeup_keys (db : DB) (f : SummaryFilters) : List (Nat × Nat) :=
  (fetch_makeup_list db f).map (fun m => (m.user_id, m.date))

/-- Keys of `summary_map` after the punch pass and the
makeup-synthesis pass (lines 112-150): real punch groups plus
makeup-only (employee, date) keys. -/
def base_keys (db : DB) (f : SummaryFilters) : List (Nat × Nat) :=
  (punch_keys db f ++ makeup_keys db f).dedup

/-- `active_users`: the users appearing in `summary_map`, intersected
with the optional user filter. -/
def active_users (db : DB) (f : SummaryFilters) : List Nat :=
  let us := ((base_keys db f).map Prod.fst).dedup
  match f.user_id with
  | some u => us.filter (fun v => v == u)
  | none => us

/-- `pd.date_range(start_date, end_date, inclusive="both")`: the
inclusive day range when both bounds are supplied, empty otherwise. -/
def date_index (f : SummaryFilters) : List Nat :=
  match f.start_date, f.end_date with
  | some s, some e => (List.range (e + 1 - s)).map (fun i => s + i)
  | _, _ => []

/-- Keys of `summary_map` after the dense-fill pass (lines 159-173):
base keys plus one key per active user and day of the queried range. -/
def all_keys (db : DB) (f : SummaryFilters) : List (Nat × Nat) :=
  (base_keys db f ++
    (active_users db f).flatMap (fun u => (date_index f).map (fun d => (u, d)))).dedup

/-- `sorted([key[1] for key in summary_map.keys() if key[0] == user])`. -/
def user_dates (db : DB) (f : SummaryFilters) (u : Nat) : List Nat :=
  List.insertionSort (· ≤ ·) (((all_keys db f).filter (fun k => k.1 == u)).map Prod.snd)

/-- One output record of `get_daily_summary`. -/
structure SummaryRow where
  user_id : Nat
  date : Nat
  check_in : Option Timestamp
  check_out : Option Timestamp
  working_hours : Option ℚ
  late_mins : Int
  early_leave_mins : Int
  makeup_hours : ℚ
  makeup_note : Option String
  total_hours : Option ℚ
  missing_check_in : Bool
  missing_check_out : Bool
  is_day_off : Bool
  weekday : Nat
  weekday_label : String
  is_weekend : Bool
  worked_on_weekend : Bool
  weekend_note : Option String
  name : Option String
  department : Option String
deriving DecidableEq

/-- `date.strftime("%A")` values indexed by `date.weekday()`. -/
def WEEKDAY_LABELS : List String :=
  ["Monday", "Tuesday", "Wednesday", "Thursday", "Friday", "Saturday", "Sunday"]

/-- The empty-punch `Metrics` record synthesized for makeup-only keys
and for dense-fill placeholder keys (lines 142-150 and 165-173). -/
def empty_metrics (u d : Nat) : Metrics :=
  { user_id := u, date := d, check_in := none, check_out := none,
    working_hours := none, late_mins := 0, early_leave_mins := 0 }

/-- The body of the row loop of `get_daily_summary` (lines 178-212):
take the stored metrics of the key, merge makeup hours and note,
compute total hours, day-off, weekend and employee-metadata fields. -/
def build_row (db : DB) (f : SummaryFilters) (u d : Nat) : SummaryRow :=
  let m : Metrics :=
    if (u, d) ∈ punch_keys db f then calculate_metrics u d (group_timestamps db f u d)
    else empty_metrics u d
  let mk := makeup_lookup db f u d
  let makeup_hours : ℚ := match mk with | some r => r.hours | none => 0
  let makeup_note : Option String := match mk with | some r => r.note | none => none
  let total : ℚ := m.working_hours.getD 0 + makeup_hours
  let total_hours : Option ℚ := if total = 0 then none else some (round2 total)
  let missing_check_in := m.check_in.isNone
  let missing_check_out := m.check_out.isNone
  let is_day_off := missing_check_in && missing_check_out
  let weekday := d % 7
  let is_weekend := decide (5 ≤ weekday)
  let meta := users_lookup db u
  { user_id := u, date := d,
    check_in := m.check_in, check_out := m.check_out,
    working_hours := m.working_hours,
    late_mins := m.late_mins, early_leave_mins := m.early_leave_mins,
    makeup_hours := makeup_hours, makeup_note := makeup_note,
    total_hours := total_hours,
    missing_check_in := missing_check_in, missing_check_out := missing_check_out,
    is_day_off := is_day_off,
    weekday := weekday, weekday_label := WEEKDAY_LABELS.getD weekday "",
    is_weekend := is_weekend,
    worked_on_weekend := is_weekend && !is_day_off,
    weekend_note :=
      if weekday == 5 && !is_day_off then some "Worked on Saturday" else none,
    name := match meta with | some r => r.name | none => none,
    department := match meta with | some r => r.department | none => none }

/-- `summary_rows`: the ordered row list built by the main loop of
`get_daily_summary` (lines 175-212), before the inactive-employee
filter. -/
def summary_rows (db : DB) (f : SummaryFilters) : List SummaryRow :=
  if base_keys db f = [] then []
  else
    (List.insertionSort (· ≤ ·) (active_users db f)).flatMap
      (fun u => (user_dates db f u).map (fun d => build_row db f u d))

/-- The activity test of lines 214-218: a row counts its employee as
active when it is not a day off or carries positive makeup hours. -/
def row_active (r : SummaryRow) : Bool :=
  !r.is_day_off || decide ((0 : ℚ) < r.makeup_hours)

/-- `get_daily_summary(user_id, start_date, end_date)` from
`summary.py`: the summary rows with fully inactive employees
dropped (lines 214-224). -/
def get_daily_summary (db : DB) (f : SummaryFilters) : List SummaryRow :=
  let rows := summary_rows db f
  rows.filter (fun r => rows.any (fun r2 => r2.user_id == r.user_id && row_active r2))

/-!
## Spec-side definitions

The following definitions transcribe the reconciliation wording of
spec section 4.1; the refinement claims compare them with the
definitions above, which were transcribed from the source.
-/

/-- Spec wording: initial candidate check-in is the earliest
timestamp; if its time of day is ≥ lunch_start, check-in is instead
the earliest timestamp strictly before lunch_start, or absent if
none exists. -/
def spec_check_in (punches : List Timestamp) : Option Timestamp :=
  match listMinTs punches with
  | none => none
  | some earliest =>
    if WORK_LUNCH_START ≤ earliest.sod then
      listMinTs (punches.filter (fun t => t.sod < WORK_LUNCH_START))
    else some earliest

/-- Spec wording: initial candidate check-out is the latest
timestamp; if its time of day is < lunch_start, check-out is instead
the latest timestamp at or after afternoon_start, or absent if none
exists. -/
def spec_check_out (punches : List Timestamp) : Option Timestamp :=
  match listMaxTs punches with
  | none => none
  | some latest =>
    if latest.sod < WORK_LUNCH_START then
      listMaxTs (punches.filter (fun t => WORK_AFTERNOON_START ≤ t.sod))
    else some latest

/-- Spec wording: if both check-in and check-out are present and
check-in is later than check-out, swap them. -/
def spec_reconcile (punches : List Timestamp) :
    Option Timestamp × Option Timestamp :=
  match spec_check_in punches, spec_check_out punches with
  | some a, some b =>
    if b.toSec < a.toSec then (some b, some a) else (some a, some b)
  | a, b => (a, b)

/-- Spec wording: worked hours are computed only if both check-in and
check-out are present and check-out is strictly after check-in; the
raw duration in seconds gets a fixed 3600-second lunch break
subtracted exactly when the check-in time is ≤ lunch_start, the
check-out time is ≥ afternoon_start and the raw duration exceeds 6
hours; the result is clamped to ≥ 0, converted to hours and rounded
to 2 decimals. -/
def spec_worked_hours (ci co : Option Timestamp) : Option ℚ :=
  match ci, co with
  | some i, some o =>
    if i.toSec < o.toSec then
      let raw : Int := (o.toSec : Int) - (i.toSec : Int)
      let ded : Int :=
        if i.sod ≤ WORK_LUNCH_START ∧ WORK_AFTERNOON_START ≤ o.sod ∧
            (6 * 3600 : Int) < raw then
          raw - (LUNCH_BREAK_SECONDS : Int)
        else raw
      some (round2 ((pyMax0 ded : ℚ) / 3600))
    else none
  | _, _ => none

/-- Spec wording: lateness in minutes is
max(0, round((check-in − scheduled start 08:00) in minutes)) when a
check-in is present, else 0. -/
def spec_late_minutes (date_value : Nat) (ci : Option Timestamp) : Int :=
  match ci with
  | some t =>
    pyMax0 (roundHalfEven ((t.toSec : Int) - ((date_value * 86400 + WORK_START : Nat) : Int)) 60)
  | none => 0

/-- Spec wording: early leave in minutes is
max(0, round((scheduled end 17:00 − check-out) in minutes)) when a
check-out is present, else 0. -/
def spec_early_leave_minutes (date_value : Nat) (co : Option Timestamp) : Int :=
  match co with
  | some t =>
    pyMax0 (roundHalfEven (((date_value * 86400 + WORK_END : Nat) : Int) - (t.toSec : Int)) 60)
  | none => 0

/-!
## Lemmas about the Python min and max folds
-/

theorem minFold_toSec_le_left (a b : Timestamp) : (minFold a b).toSec ≤ a.toSec := by
  unfold minFold; split <;> omega

theorem minFold_toSec_le_right (a b : Timestamp) : (minFold a b).toSec ≤ b.toSec := by
  unfold minFold; split <;> omega

theorem maxFold_toSec_ge_left (a b : Timestamp) : a.toSec ≤ (maxFold a b).toSec := by
  unfold maxFold; split <;> omega

theorem maxFold_toSec_ge_right (a b : Timestamp) : b.toSec ≤ (maxFold a b).toSec := by
  unfold maxFold; split <;> omega

theorem foldl_minFold_le_init (ts : List Timestamp) :
    ∀ a : Timestamp, (ts.foldl minFold a).toSec ≤ a.toSec := by
  induction ts with
  | nil => intro a; exact Nat.le_refl _
  | cons b ts ih =>
    intro a
    exact Nat.le_trans (ih (minFold a b)) (minFold_toSec_le_left a b)

theorem foldl_minFold_le_mem (ts : List Timestamp) :
    ∀ a : Timestamp, ∀ t ∈ ts, (ts.foldl minFold a).toSec ≤ t.toSec := by
  induction ts with
  | nil => intro a t ht; cases ht
  | cons b ts ih =>
    intro a t ht
    rcases List.mem_cons.1 ht with h | h
    · subst h
      exact Nat.le_trans (foldl_minFold_le_init ts (minFold a t))
        (minFold_toSec_le_right a t)
    · exact ih (minFold a b) t h

theorem foldl_minFold_mem (ts : List Timestamp) :
    ∀ a : Timestamp, ts.foldl minFold a = a ∨ ts.foldl minFold a ∈ ts := by
  induction ts with
  | nil => intro a; exact Or.inl rfl
  | cons b ts ih =>
    intro a
    rcases ih (minFold a b) with h | h
    · rw [List.foldl_cons, h]
      unfold minFold; split
      · exact Or.inr (List.mem_cons_self b ts)
      · exact Or.inl rfl
    · exact Or.inr (List.mem_cons_of_mem b h)

theorem foldl_maxFold_ge_init (ts : List Timestamp) :
    ∀ a : Timestamp, a.toSec ≤ (ts.foldl maxFold a).toSec := by
  induction ts with
  | nil => intro a; exact Nat.le_refl _
  | cons b ts ih =>
    intro a
    exact Nat.le_trans (maxFold_toSec_ge_left a b) (ih (maxFold a b))

theorem foldl_maxFold_ge_mem (ts : List Timestamp) :
    ∀ a : Timestamp, ∀ t ∈ ts, t.toSec ≤ (ts.foldl maxFold a).toSec := by
  induction ts with
  | nil => intro a t ht; cases ht
  | cons b ts ih =>
    intro a t ht
    rcases List.mem_cons.1 ht with h | h
    · subst h
      exact Nat.le_trans (maxFold_toSec_ge_right a t)
        (foldl_maxFold_ge_init ts (maxFold a t))
    · exact ih (maxFold a b) t h

theorem foldl_maxFold_mem (ts : List Timestamp) :
    ∀ a : Timestamp, ts.foldl maxFold a = a ∨ ts.foldl maxFold a ∈ ts := by
  induction ts with
  | nil => intro a; exact Or.inl rfl
  | cons b ts ih =>
    intro a
    rcases ih (maxFold a b) with h | h
    · rw [List.foldl_cons, h]
      unfold maxFold; split
      · exact Or.inr (List.mem_cons_self b ts)
      · exact Or.inl rfl
    · exact Or.inr (List.mem_cons_of_mem b h)

/-- The Python minimum of a nonempty list is a member and a lower
bound. -/
theorem listMinTs_spec {l : List Timestamp} {m : Timestamp}
    (h : listMinTs l = some m) : m ∈ l ∧ ∀ t ∈ l, m.toSec ≤ t.toSec := by
  cases l with
  | nil => cases h
  | cons t ts =>
    have hm : ts.foldl minFold t = m := Option.some.inj h
    constructor
    · rcases foldl_minFold_mem ts t with h2 | h2
      · rw [hm] at h2; rw [h2]; exact List.mem_cons_self t ts
      · rw [hm] at h2; exact List.mem_cons_of_mem t h2
    · intro x hx
      rcases List.mem_cons.1 hx with h2 | h2
      · rw [h2, ← hm]; exact foldl_minFold_le_init ts t
      · rw [← hm]; exact foldl_minFold_le_mem ts t x h2

/-- The Python maximum of a nonempty list is a member and an upper
bound. -/
theorem listMaxTs_spec {l : List Timestamp} {m : Timestamp}
    (h : listMaxTs l = some m) : m ∈ l ∧ ∀ t ∈ l, t.toSec ≤ m.toSec := by
  cases l with
  | nil => cases h
  | cons t ts =>
    have hm : ts.foldl maxFold t = m := Option.some.inj h
    constructor
    · rcases foldl_maxFold_mem ts t with h2 | h2
      · rw [hm] at h2; rw [h2]; exact List.mem_cons_self t ts
      · rw [hm] at h2; exact List.mem_cons_of_mem t h2
    · intro x hx
      rcases List.mem_cons.1 hx with h2 | h2
      · rw [h2, ← hm]; exact foldl_maxFold_ge_init ts t
      · rw [← hm]; exact foldl_maxFold_ge_mem ts t x h2

/-- On a nonempty group, `_calculate_metrics` exposes exactly the
reconciled pair as its check-in/check-out fields. -/
theorem calculate_metrics_check_fields (u d : Nat) {l : List Timestamp}
    (h : l ≠ []) :
    (calculate_metrics u d l).check_in = (reconcile_punches l).1 ∧
    (calculate_metrics u d l).check_out = (reconcile_punches l).2 := by
  cases l with
  | nil => exact absurd rfl h
  | cons t ts => exact ⟨rfl, rfl⟩

/-- The reconciliation transcribed from the source coincides with the
reconciliation transcribed from the spec wording. -/
theorem reconcile_punches_eq_spec (l : List Timestamp) :
    reconcile_punches l = spec_reconcile l := rfl

/-- Claim C1, counterexample: on events 08:05, 12:02, 13:01, 17:10 the
computed worked hours are not approximately 7.08 (they are 8.08: the
raw span 17:10 − 08:05 is 9h05m, not 8h05m, and the lunch deduction
leaves 8h05m). -/
theorem spec_example_worked_hours_false_C1 :
    (calculate_metrics 1 0
      [⟨0, 29100⟩, ⟨0, 43320⟩, ⟨0, 46860⟩, ⟨0, 61800⟩]).working_hours
      ≠ some (708 / 100) := by decide

/-- Claim C1, amended: for a single employee/day whose events are
exactly 08:05, 12:02, 13:01 and 17:10, the summary has
check_in = 08:05, check_out = 17:10, the 1-hour lunch break deducted,
worked_hours = 8.08, late_minutes = 5 and early_leave_minutes = 0. -/
theorem spec_example_metrics_C1 :
    calculate_metrics 1 0 [⟨0, 29100⟩, ⟨0, 43320⟩, ⟨0, 46860⟩, ⟨0, 61800⟩] =
      { user_id := 1, date := 0,
        check_in := some ⟨0, 29100⟩, check_out := some ⟨0, 61800⟩,
        working_hours := some (808 / 100),
        late_mins := 5, early_leave_mins := 0 } := by decide

/-- Claim C2: on every nonempty same-day group, the check-in and
check-out computed by `_calculate_metrics` are exactly the ones the
spec reconciliation wording describes (earliest punch with
afternoon-start fallback, latest punch with morning fallback, swap
when out of order); in particular two punches at 08:00 and 09:30
yield check_in 08:00 and an absent check-out with
missing_check_out = true in the summary output. -/
theorem reconciliation_matches_spec_C2 (u d : Nat) (l : List Timestamp)
    (hne : l ≠ []) (hday : ∀ t ∈ l, t.day = d) :
    ((calculate_metrics u d l).check_in = (spec_reconcile l).1 ∧
     (calculate_metrics u d l).check_out = (spec_reconcile l).2) ∧
    (get_daily_summary
        ⟨[⟨1, ⟨0, 28800⟩, 0⟩, ⟨1, ⟨0, 34200⟩, 0⟩], [], []⟩
        ⟨none, none, none⟩).map
        (fun r => (r.check_in, r.check_out, r.missing_check_out))
      = [(some ⟨0, 28800⟩, none, true)] := by
  refine ⟨?_, by decide⟩
  have hf := calculate_metrics_check_fields u d (l := l) hne
  rw [hf.1, hf.2, reconcile_punches_eq_spec]
  exact ⟨rfl, rfl⟩

/-- Witness for C2: the reconciliation equations instantiated on the
two-punch morning group 08:00, 09:30 of day 0. -/
theorem reconciliation_matches_spec_C2_witness :
    (([⟨0, 28800⟩, ⟨0, 34200⟩] : List Timestamp) ≠ [] ∧
      ∀ t ∈ ([⟨0, 28800⟩, ⟨0, 34200⟩] : List Timestamp), t.day = 0) ∧
    (((calculate_metrics 1 0 [⟨0, 28800⟩, ⟨0, 34200⟩]).check_in =
        (spec_reconcile [⟨0, 28800⟩, ⟨0, 34200⟩]).1 ∧
      (calculate_metrics 1 0 [⟨0, 28800⟩, ⟨0, 34200⟩]).check_out =
        (spec_reconcile [⟨0, 28800⟩, ⟨0, 34200⟩]).2) ∧
     (get_daily_summary
        ⟨[⟨1, ⟨0, 28800⟩, 0⟩, ⟨1, ⟨0, 34200⟩, 0⟩], [], []⟩
        ⟨none, none, none⟩).map
        (fun r => (r.check_in, r.check_out, r.missing_check_out))
      = [(some ⟨0, 28800⟩, none, true)]) :=
  ⟨⟨by decide, by decide⟩,
    reconciliation_matches_spec_C2 1 0 [⟨0, 28800⟩, ⟨0, 34200⟩]
      (by decide) (by decide)⟩

/-- Claim C3: the worked-hours field of every computed summary is
exactly the spec formula applied to the reconciled check-in and
check-out: present only when both punches are present with check-out
strictly later, with the fixed 3600-second lunch deduction exactly
under the three spec conditions, clamped at 0, converted to hours
and rounded to two decimals. -/
theorem worked_hours_matches_spec_C3 (u d : Nat) (l : List Timestamp) :
    (calculate_metrics u d l).working_hours =
      spec_worked_hours (calculate_metrics u d l).check_in
        (calculate_metrics u d l).check_out := by
  cases l with
  | nil => rfl
  | cons t ts => rfl

/-- Claim C9: lateness and early leave are computed by the spec
formulas from whichever check-in/check-out survive reconciliation;
in particular a lone pre-lunch punch at 09:00 keeps its check-in but
loses its check-out, and reports early_leave_minutes = 0. -/
theorem late_early_matches_spec_C9 :
    (∀ (u d : Nat) (l : List Timestamp),
      (calculate_metrics u d l).late_mins =
        spec_late_minutes d (calculate_metrics u d l).check_in ∧
      (calculate_metrics u d l).early_leave_mins =
        spec_early_leave_minutes d (calculate_metrics u d l).check_out) ∧
    (calculate_metrics 1 0 [⟨0, 32400⟩]).check_in = some ⟨0, 32400⟩ ∧
    (calculate_metrics 1 0 [⟨0, 32400⟩]).check_out = none ∧
    (calculate_metrics 1 0 [⟨0, 32400⟩]).early_leave_mins = 0 := by
  refine ⟨fun u d l => ?_, by decide, by decide, by decide⟩
  cases l with
  | nil => exact ⟨rfl, rfl⟩
  | cons t ts => exact ⟨rfl, rfl⟩

/-- Claim C10: on a nonempty same-day group, an afternoon-only minimum
leaves no morning punch (so the check-in fallback is absent), a
morning-only maximum leaves no afternoon punch (so the check-out
fallback is absent); when both candidates survive they are the group
minimum and maximum in order, so the swap branch never fires. -/
theorem same_day_reconciliation_safe_C10 (d : Nat) (l : List Timestamp)
    (hne : l ≠ []) (hday : ∀ t ∈ l, t.day = d) :
    (∀ mn, listMinTs l = some mn → WORK_LUNCH_START ≤ mn.sod →
        l.filter (fun t => t.sod < WORK_LUNCH_START) = [] ∧
        check_in_candidate l = none) ∧
    (∀ mx, listMaxTs l = some mx → mx.sod < WORK_LUNCH_START →
        l.filter (fun t => WORK_AFTERNOON_START ≤ t.sod) = [] ∧
        check_out_candidate l = none) ∧
    (∀ a b, check_in_candidate l = some a → check_out_candidate l = some b →
        a.toSec ≤ b.toSec ∧ reconcile_punches l = (some a, some b)) ∧
    (∀ u a b, (calculate_metrics u d l).check_in = some a →
        (calculate_metrics u d l).check_out = some b →
        listMinTs l = some a ∧ listMaxTs l = some b ∧ a.toSec ≤ b.toSec) := by
  obtain ⟨mn, mx, hmn, hmx⟩ :
      ∃ mn mx, listMinTs l = some mn ∧ listMaxTs l = some mx := by
    cases l with
    | nil => exact absurd rfl hne
    | cons t ts => exact ⟨_, _, rfl, rfl⟩
  obtain ⟨hmn_mem, hmn_le⟩ := listMinTs_spec hmn
  obtain ⟨hmx_mem, hmx_ge⟩ := listMaxTs_spec hmx
  have hsod_mn : ∀ t ∈ l, mn.sod ≤ t.sod := by
    intro t ht
    have h1 := hmn_le t ht
    have e1 := hday mn hmn_mem
    have e2 := hday t ht
    unfold Timestamp.toSec at h1
    omega
  have hsod_mx : ∀ t ∈ l, t.sod ≤ mx.sod := by
    intro t ht
    have h1 := hmx_ge t ht
    have e1 := hday mx hmx_mem
    have e2 := hday t ht
    unfold Timestamp.toSec at h1
    omega
  have hfil_am : WORK_LUNCH_START ≤ mn.sod →
      l.filter (fun t => t.sod < WORK_LUNCH_START) = [] := by
    intro hge
    rw [List.filter_eq_nil_iff]
    intro t ht
    have := hsod_mn t ht
    simp only [decide_eq_true_eq]
    omega
  have hfil_pm : mx.sod < WORK_LUNCH_START →
      l.filter (fun t => WORK_AFTERNOON_START ≤ t.sod) = [] := by
    intro hlt
    rw [List.filter_eq_nil_iff]
    intro t ht
    have := hsod_mx t ht
    simp only [decide_eq_true_eq]
    unfold WORK_LUNCH_START at hlt
    unfold WORK_AFTERNOON_START
    omega
  have hcin_eq : check_in_candidate l
      = if WORK_LUNCH_START ≤ mn.sod then
          listMinTs (l.filter (fun u => u.sod < WORK_LUNCH_START))
        else some mn := by
    unfold check_in_candidate
    rw [hmn]
  have hcout_eq : check_out_candidate l
      = if mx.sod < WORK_LUNCH_START then
          listMaxTs (l.filter (fun u => WORK_AFTERNOON_START ≤ u.sod))
        else some mx := by
    unfold check_out_candidate
    rw [hmx]
  have hcin_none : WORK_LUNCH_START ≤ mn.sod → check_in_candidate l = none := by
    intro hge
    rw [hcin_eq, if_pos hge, hfil_am hge]
    rfl
  have hcout_none : mx.sod < WORK_LUNCH_START → check_out_candidate l = none := by
    intro hlt
    rw [hcout_eq, if_pos hlt, hfil_pm hlt]
    rfl
  have hcin_char : ∀ a, check_in_candidate l = some a → a = mn := by
    intro a ha
    by_cases hge : WORK_LUNCH_START ≤ mn.sod
    · rw [hcin_none hge] at ha; cases ha
    · rw [hcin_eq, if_neg hge] at ha
      exact (Option.some.inj ha).symm
  have hcout_char : ∀ b, check_out_candidate l = some b → b = mx := by
    intro b hb
    by_cases hlt : mx.sod < WORK_LUNCH_START
    · rw [hcout_none hlt] at hb; cases hb
    · rw [hcout_eq, if_neg hlt] at hb
      exact (Option.some.inj hb).symm
  have hpair : ∀ a b, check_in_candidate l = some a →
      check_out_candidate l = some b →
      a.toSec ≤ b.toSec ∧ reconcile_punches l = (some a, some b) := by
    intro a b ha hb
    have hamn := hcin_char a ha
    have hbmx := hcout_char b hb
    have hle : a.toSec ≤ b.toSec := by
      rw [hamn, hbmx]
      exact hmn_le mx hmx_mem
    refine ⟨hle, ?_⟩
    have hswap : reconcile_punches l
        = if b.toSec < a.toSec then (some b, some a) else (some a, some b) := by
      unfold reconcile_punches
      rw [ha, hb]
    rw [hswap, if_neg (Nat.not_lt.2 hle)]
  refine ⟨?_, ?_, hpair, ?_⟩
  · intro mn2 hmn2 hge2
    have hq : mn2 = mn := Option.some.inj (hmn.symm.trans hmn2).symm
    subst hq
    exact ⟨hfil_am hge2, hcin_none hge2⟩
  · intro mx2 hmx2 hlt2
    have hq : mx2 = mx := Option.some.inj (hmx.symm.trans hmx2).symm
    subst hq
    exact ⟨hfil_pm hlt2, hcout_none hlt2⟩
  · intro u a b hci hco
    have hf := calculate_metrics_check_fields u d (l := l) hne
    rw [hf.1] at hci
    rw [hf.2] at hco
    rcases hA : check_in_candidate l with _ | a2
    · have hrec : reconcile_punches l = (none, check_out_candidate l) := by
        unfold reconcile_punches
        rw [hA]
      rw [hrec] at hci
      cases hci
    · rcases hB : check_out_candidate l with _ | b2
      · have hrec : reconcile_punches l = (some a2, none) := by
          unfold reconcile_punches
          rw [hA, hB]
        rw [hrec] at hco
        cases hco
      · obtain ⟨hle2, hrec⟩ := hpair a2 b2 hA hB
        rw [hrec] at hci hco
        have ha2 : a2 = a := Option.some.inj hci
        have hb2 : b2 = b := Option.some.inj hco
        subst ha2
        subst hb2
        refine ⟨?_, ?_, hle2⟩
        · rw [hcin_char a2 hA]
          exact hmn
        · rw [hcout_char b2 hB]
          exact hmx

/-- Witness for C10 on the two-punch group 08:00, 17:10 of day 0. -/
theorem same_day_reconciliation_safe_C10_witness :
    (([⟨0, 28800⟩, ⟨0, 61800⟩] : List Timestamp) ≠ [] ∧
      ∀ t ∈ ([⟨0, 28800⟩, ⟨0, 61800⟩] : List Timestamp), t.day = 0) ∧
    ((∀ mn, listMinTs [⟨0, 28800⟩, ⟨0, 61800⟩] = some mn →
        WORK_LUNCH_START ≤ mn.sod →
        ([⟨0, 28800⟩, ⟨0, 61800⟩] : List Timestamp).filter
          (fun t => t.sod < WORK_LUNCH_START) = [] ∧
        check_in_candidate [⟨0, 28800⟩, ⟨0, 61800⟩] = none) ∧
    (∀ mx, listMaxTs [⟨0, 28800⟩, ⟨0, 61800⟩] = some mx →
        mx.sod < WORK_LUNCH_START →
        ([⟨0, 28800⟩, ⟨0, 61800⟩] : List Timestamp).filter
          (fun t => WORK_AFTERNOON_START ≤ t.sod) = [] ∧
        check_out_candidate [⟨0, 28800⟩, ⟨0, 61800⟩] = none) ∧
    (∀ a b, check_in_candidate [⟨0, 28800⟩, ⟨0, 61800⟩] = some a →
        check_out_candidate [⟨0, 28800⟩, ⟨0, 61800⟩] = some b →
        a.toSec ≤ b.toSec ∧
        reconcile_punches [⟨0, 28800⟩, ⟨0, 61800⟩] = (some a, some b)) ∧
    (∀ u a b,
        (calculate_metrics u 0 [⟨0, 28800⟩, ⟨0, 61800⟩]).check_in = some a →
        (calculate_metrics u 0 [⟨0, 28800⟩, ⟨0, 61800⟩]).check_out = some b →
        listMinTs [⟨0, 28800⟩, ⟨0, 61800⟩] = some a ∧
        listMaxTs [⟨0, 28800⟩, ⟨0, 61800⟩] = some b ∧ a.toSec ≤ b.toSec)) :=
  ⟨⟨by decide, by decide⟩,
    same_day_reconciliation_safe_C10 0 [⟨0, 28800⟩, ⟨0, 61800⟩]
      (by decide) (by decide)⟩

/-!
## The output ordering and key-uniqueness invariant (claim C4)
-/

/-- Strict lexicographic order on output rows: employee id ascending,
then date ascending. -/
def row_lt (a b : SummaryRow) : Prop :=
  a.user_id < b.user_id ∨ (a.user_id = b.user_id ∧ a.date < b.date)

theorem insertionSort_pairwise_lt {l : List Nat} (h : l.Nodup) :
    (List.insertionSort (· ≤ ·) l).Pairwise (· < ·) := by
  have hs : (List.insertionSort (· ≤ ·) l).Pairwise (· ≤ ·) :=
    List.sorted_insertionSort _ l
  have hn : (List.insertionSort (· ≤ ·) l).Pairwise (· ≠ ·) :=
    ((List.perm_insertionSort (· ≤ ·) l).nodup_iff).2 h
  exact (hs.and hn).imp fun hab => lt_of_le_of_ne hab.1 hab.2

theorem all_keys_nodup (db : DB) (f : SummaryFilters) : (all_keys db f).Nodup :=
  List.nodup_dedup _

theorem user_dates_base_nodup (db : DB) (f : SummaryFilters) (u : Nat) :
    ((((all_keys db f).filter (fun k => k.1 == u)).map Prod.snd)).Nodup := by
  apply List.Nodup.map_on
  · intro x hx y hy hxy
    have hxu : x.1 = u := by
      have := (List.mem_filter.1 hx).2
      simpa using this
    have hyu : y.1 = u := by
      have := (List.mem_filter.1 hy).2
      simpa using this
    exact Prod.ext (hxu.trans hyu.symm) hxy
  · exact (all_keys_nodup db f).filter _

theorem user_dates_pairwise_lt (db : DB) (f : SummaryFilters) (u : Nat) :
    (user_dates db f u).Pairwise (· < ·) :=
  insertionSort_pairwise_lt (user_dates_base_nodup db f u)

theorem active_users_nodup (db : DB) (f : SummaryFilters) :
    (active_users db f).Nodup := by
  unfold active_users
  rcases f.user_id with _ | w
  · exact List.nodup_dedup _
  · exact (List.nodup_dedup _).filter _

theorem pairwise_row_lt_flatMap (g : Nat → List SummaryRow)
    (hg_user : ∀ u r, r ∈ g u → r.user_id = u)
    (hg_pair : ∀ u, (g u).Pairwise row_lt) :
    ∀ us : List Nat, us.Pairwise (· < ·) → (us.flatMap g).Pairwise row_lt := by
  intro us
  induction us with
  | nil => intro _; simp
  | cons u us ih =>
    intro h
    rw [List.flatMap_cons]
    refine List.pairwise_append.2 ⟨hg_pair u, ih h.of_cons, ?_⟩
    intro a ha b hb
    obtain ⟨v, hv, hbv⟩ := List.mem_flatMap.1 hb
    left
    rw [hg_user u a ha, hg_user v b hbv]
    exact (List.pairwise_cons.1 h).1 v hv

theorem summary_rows_pairwise (db : DB) (f : SummaryFilters) :
    (summary_rows db f).Pairwise row_lt := by
  unfold summary_rows
  split
  · exact List.Pairwise.nil
  · apply pairwise_row_lt_flatMap
    · intro u r hr
      obtain ⟨d, _, hrd⟩ := List.mem_map.1 hr
      rw [← hrd]
      rfl
    · intro u
      rw [List.pairwise_map]
      exact (user_dates_pairwise_lt db f u).imp fun hlt => Or.inr ⟨rfl, hlt⟩
    · exact insertionSort_pairwise_lt (active_users_nodup db f)

/-- Claim C4: the output of `get_daily_summary` is strictly ordered by
employee id ascending then date ascending; consequently no two output
rows share an (employee, date) key, i.e. the output contains exactly
one row per key it mentions. -/
theorem output_ordered_and_unique_C4 (db : DB) (f : SummaryFilters) :
    (get_daily_summary db f).Pairwise row_lt ∧
    (get_daily_summary db f).Pairwise
      (fun a b => ¬(a.user_id = b.user_id ∧ a.date = b.date)) := by
  have h : (get_daily_summary db f).Pairwise row_lt :=
    (summary_rows_pairwise db f).sublist (List.filter_sublist _)
  refine ⟨h, h.imp ?_⟩
  intro a b hab hk
  rcases hab with h1 | ⟨_, h2⟩
  · omega
  · omega

/-!
## Membership lemmas for the summary_map passes (claims C5-C8)
-/

theorem punch_keys_sub_base {db : DB} {f : SummaryFilters} {k : Nat × Nat}
    (h : k ∈ punch_keys db f) : k ∈ base_keys db f :=
  List.mem_dedup.2 (List.mem_append_left _ h)

theorem makeup_keys_sub_base {db : DB} {f : SummaryFilters} {k : Nat × Nat}
    (h : k ∈ makeup_keys db f) : k ∈ base_keys db f :=
  List.mem_dedup.2 (List.mem_append_right _ h)

theorem base_keys_user_eq {db : DB} {f : SummaryFilters} {u d w : Nat}
    (h : (u, d) ∈ base_keys db f) (hw : f.user_id = some w) : u = w := by
  rcases List.mem_append.1 (List.mem_dedup.1 h) with h2 | h2
  · obtain ⟨r, hr, hk⟩ := List.mem_map.1 (List.mem_dedup.1 h2)
    have hcond := (List.mem_filter.1 hr).2
    rw [hw] at hcond
    simp only [Bool.and_eq_true, beq_iff_eq] at hcond
    have hru : r.user_id = u := congrArg Prod.fst hk
    rw [← hru]
    exact hcond.1.1
  · obtain ⟨m, hm, hk⟩ := List.mem_map.1 h2
    have hcond := (List.mem_filter.1 hm).2
    rw [hw] at hcond
    simp only [Bool.and_eq_true, beq_iff_eq] at hcond
    have hmu : m.user_id = u := congrArg Prod.fst hk
    rw [← hmu]
    exact hcond.1.1

theorem mem_active_users_of_base {db : DB} {f : SummaryFilters} {u d : Nat}
    (h : (u, d) ∈ base_keys db f) : u ∈ active_users db f := by
  have hmem : u ∈ ((base_keys db f).map Prod.fst).dedup :=
    List.mem_dedup.2 (List.mem_map.2 ⟨(u, d), h, rfl⟩)
  unfold active_users
  rcases hf : f.user_id with _ | w
  · exact hmem
  · refine List.mem_filter.2 ⟨hmem, ?_⟩
    simp [base_keys_user_eq h hf]

theorem active_users_sub {db : DB} {f : SummaryFilters} {u : Nat}
    (h : u ∈ active_users db f) : ∃ d0, (u, d0) ∈ base_keys db f := by
  have h2 : u ∈ ((base_keys db f).map Prod.fst).dedup := by
    unfold active_users at h
    rcases hf : f.user_id with _ | w
    · rw [hf] at h; exact h
    · rw [hf] at h; exact List.mem_of_mem_filter h
  obtain ⟨k, hk, hku⟩ := List.mem_map.1 (List.mem_dedup.1 h2)
  refine ⟨k.2, ?_⟩
  have he : (u, k.2) = k := Prod.ext hku.symm rfl
  rw [he]
  exact hk

theorem mem_all_keys_of_base {db : DB} {f : SummaryFilters} {k : Nat × Nat}
    (h : k ∈ base_keys db f) : k ∈ all_keys db f :=
  List.mem_dedup.2 (List.mem_append_left _ h)

theorem mem_all_keys_fill {db : DB} {f : SummaryFilters} {u d : Nat}
    (hu : u ∈ active_users db f) (hd : d ∈ date_index f) :
    (u, d) ∈ all_keys db f :=
  List.mem_dedup.2 (List.mem_append_right _
    (List.mem_flatMap.2 ⟨u, hu, List.mem_map.2 ⟨d, hd, rfl⟩⟩))

theorem mem_all_keys_elim {db : DB} {f : SummaryFilters} {k : Nat × Nat}
    (h : k ∈ all_keys db f) :
    k ∈ base_keys db f ∨ (k.1 ∈ active_users db f ∧ k.2 ∈ date_index f) := by
  rcases List.mem_append.1 (List.mem_dedup.1 h) with h2 | h2
  · exact Or.inl h2
  · obtain ⟨u, hu, hk⟩ := List.mem_flatMap.1 h2
    obtain ⟨d, hd, hkd⟩ := List.mem_map.1 hk
    right
    rw [← hkd]
    exact ⟨hu, hd⟩

theorem mem_user_dates {db : DB} {f : SummaryFilters} {u d : Nat}
    (h : (u, d) ∈ all_keys db f) : d ∈ user_dates db f u := by
  unfold user_dates
  rw [List.mem_insertionSort]
  exact List.mem_map.2 ⟨(u, d), List.mem_filter.2 ⟨h, by simp⟩, rfl⟩

theorem user_dates_sub {db : DB} {f : SummaryFilters} {u d : Nat}
    (h : d ∈ user_dates db f u) : (u, d) ∈ all_keys db f := by
  unfold user_dates at h
  rw [List.mem_insertionSort] at h
  obtain ⟨k, hk, hkd⟩ := List.mem_map.1 h
  have hk1 : k.1 = u := by
    have := (List.mem_filter.1 hk).2
    simpa using this
  have he : k = (u, d) := Prod.ext hk1 hkd
  rw [← he]
  exact (List.mem_filter.1 hk).1

theorem mem_summary_rows {db : DB} {f : SummaryFilters} {u d : Nat}
    (hu : u ∈ active_users db f) (hd : d ∈ user_dates db f u)
    (hne : ¬base_keys db f = []) :
    build_row db f u d ∈ summary_rows db f := by
  unfold summary_rows
  rw [if_neg hne]
  exact List.mem_flatMap.2
    ⟨u, (List.mem_insertionSort _).2 hu, List.mem_map.2 ⟨d, hd, rfl⟩⟩

theorem summary_rows_elim {db : DB} {f : SummaryFilters} {r : SummaryRow}
    (h : r ∈ summary_rows db f) :
    ∃ u d, u ∈ active_users db f ∧ d ∈ user_dates db f u ∧
      r = build_row db f u d := by
  unfold summary_rows at h
  split at h
  · cases h
  · obtain ⟨u, hu, hr⟩ := List.mem_flatMap.1 h
    obtain ⟨d, hd, hrd⟩ := List.mem_map.1 hr
    exact ⟨u, d, (List.mem_insertionSort _).1 hu, hd, hrd.symm⟩

theorem mem_date_index {f : SummaryFilters} {s e d : Nat}
    (hs : f.start_date = some s) (he : f.end_date = some e)
    (h1 : s ≤ d) (h2 : d ≤ e) : d ∈ date_index f := by
  unfold date_index
  rw [hs, he]
  exact List.mem_map.2 ⟨d - s, List.mem_range.2 (by omega), by omega⟩

theorem date_index_empty {f : SummaryFilters}
    (h : f.start_date = none ∨ f.end_date = none) : date_index f = [] := by
  unfold date_index
  rcases hs : f.start_date with _ | s <;> rcases he : f.end_date with _ | e <;>
    first
      | rfl
      | (rcases h with h | h <;> simp_all)

/-- The fields of a row whose key has no punches: the empty-punch
placeholder of lines 142-150 and 165-173. -/
theorem build_row_no_punch {db : DB} {f : SummaryFilters} {u d : Nat}
    (h : (u, d) ∉ punch_keys db f) :
    (build_row db f u d).check_in = none ∧
    (build_row db f u d).check_out = none ∧
    (build_row db f u d).working_hours = none ∧
    (build_row db f u d).late_mins = 0 ∧
    (build_row db f u d).early_leave_mins = 0 := by
  unfold build_row
  rw [if_neg h]
  exact ⟨rfl, rfl, rfl, rfl, rfl⟩

/-- Claim C5: exactly when both date bounds are supplied, every
employee owning at least one base summary row gets one row per day of
the inclusive queried range; rows at keys without punches carry the
empty-punch placeholder; without both bounds no key beyond the base
keys appears; and a row is only ever emitted for an employee owning a
base key. -/
theorem dense_fill_C5 (db : DB) (f : SummaryFilters) :
    (∀ s e u d0 d, f.start_date = some s → f.end_date = some e →
      (u, d0) ∈ base_keys db f → s ≤ d → d ≤ e →
      (u, d) ∈ (summary_rows db f).map (fun r => (r.user_id, r.date))) ∧
    (∀ r ∈ summary_rows db f, (r.user_id, r.date) ∉ base_keys db f →
      r.check_in = none ∧ r.check_out = none ∧ r.working_hours = none ∧
      r.late_mins = 0 ∧ r.early_leave_mins = 0) ∧
    ((f.start_date = none ∨ f.end_date = none) →
      ∀ r ∈ summary_rows db f, (r.user_id, r.date) ∈ base_keys db f) ∧
    (∀ r ∈ summary_rows db f, ∃ d0, (r.user_id, d0) ∈ base_keys db f) := by
  refine ⟨?_, ?_, ?_, ?_⟩
  · intro s e u d0 d hs he hbase h1 h2
    have hu : u ∈ active_users db f := mem_active_users_of_base hbase
    have hd : d ∈ user_dates db f u :=
      mem_user_dates (mem_all_keys_fill hu (mem_date_index hs he h1 h2))
    have hne : ¬base_keys db f = [] := List.ne_nil_of_mem hbase
    exact List.mem_map.2 ⟨build_row db f u d, mem_summary_rows hu hd hne, rfl⟩
  · intro r hr hnb
    obtain ⟨u, d, hu, hd, hrd⟩ := summary_rows_elim hr
    subst hrd
    have hnp : (u, d) ∉ punch_keys db f := fun hp => hnb (punch_keys_sub_base hp)
    exact build_row_no_punch hnp
  · intro hnone r hr
    obtain ⟨u, d, hu, hd, hrd⟩ := summary_rows_elim hr
    subst hrd
    rcases mem_all_keys_elim (user_dates_sub hd) with h | ⟨_, hdi⟩
    · exact h
    · rw [date_index_empty hnone] at hdi
      cases hdi
  · intro r hr
    obtain ⟨u, d, hu, hd, hrd⟩ := summary_rows_elim hr
    subst hrd
    exact active_users_sub hu

/-- Witness for C5: an employee active only on day 0 queried over the
range 0..2 gets a row on day 2. -/
theorem dense_fill_C5_witness :
    ((⟨none, some 0, some 2⟩ : SummaryFilters).start_date = some 0 ∧
     (⟨none, some 0, some 2⟩ : SummaryFilters).end_date = some 2 ∧
     ((1 : Nat), (0 : Nat)) ∈
       base_keys ⟨[⟨1, ⟨0, 28800⟩, 0⟩], [], []⟩ ⟨none, some 0, some 2⟩ ∧
     (0 : Nat) ≤ 2 ∧ (2 : Nat) ≤ 2) ∧
    ((1 : Nat), (2 : Nat)) ∈
      (summary_rows ⟨[⟨1, ⟨0, 28800⟩, 0⟩], [], []⟩ ⟨none, some 0, some 2⟩).map
        (fun r => (r.user_id, r.date)) :=
  ⟨⟨rfl, rfl, by decide, by decide, by decide⟩,
    (dense_fill_C5 ⟨[⟨1, ⟨0, 28800⟩, 0⟩], [], []⟩ ⟨none, some 0, some 2⟩).1
      0 2 1 0 2 rfl rfl (by decide) (by decide) (by decide)⟩

theorem get_daily_summary_eq (db : DB) (f : SummaryFilters) :
    get_daily_summary db f =
      (summary_rows db f).filter
        (fun r => (summary_rows db f).any
          (fun r2 => r2.user_id == r.user_id && row_active r2)) := rfl

theorem row_active_iff (r : SummaryRow) :
    row_active r = true ↔ (r.is_day_off = false ∨ 0 < r.makeup_hours) := by
  unfold row_active
  simp [Bool.or_eq_true, Bool.not_eq_true', decide_eq_true_eq]

theorem mem_output_of_active {db : DB} {f : SummaryFilters} {r : SummaryRow}
    (hr : r ∈ summary_rows db f)
    (hex : ∃ r2 ∈ summary_rows db f, r2.user_id = r.user_id ∧ row_active r2 = true) :
    r ∈ get_daily_summary db f := by
  rw [get_daily_summary_eq, List.mem_filter]
  obtain ⟨r2, hr2, hu2, ha2⟩ := hex
  refine ⟨hr, List.any_eq_true.2 ⟨r2, hr2, ?_⟩⟩
  rw [Bool.and_eq_true, beq_iff_eq]
  exact ⟨hu2, ha2⟩

/-- Claim C6: an employee appears in the output exactly when one of
their synthesized rows is not a day off or carries strictly positive
makeup hours; and every row of such an employee is kept, so an
employee that is all-day-off with no positive makeup loses all rows. -/
theorem inactive_employees_dropped_C6 (db : DB) (f : SummaryFilters) :
    (∀ u, (∃ r ∈ get_daily_summary db f, r.user_id = u) ↔
      (∃ r ∈ summary_rows db f, r.user_id = u ∧
        (r.is_day_off = false ∨ 0 < r.makeup_hours))) ∧
    (∀ r ∈ summary_rows db f,
      (∃ r2 ∈ summary_rows db f, r2.user_id = r.user_id ∧
        (r2.is_day_off = false ∨ 0 < r2.makeup_hours)) →
      r ∈ get_daily_summary db f) := by
  have hmem : ∀ r, r ∈ get_daily_summary db f ↔
      r ∈ summary_rows db f ∧ ∃ r2 ∈ summary_rows db f,
        r2.user_id = r.user_id ∧ (r2.is_day_off = false ∨ 0 < r2.makeup_hours) := by
    intro r
    rw [get_daily_summary_eq, List.mem_filter]
    constructor
    · rintro ⟨h1, h2⟩
      refine ⟨h1, ?_⟩
      obtain ⟨r2, hr2, hcond⟩ := List.any_eq_true.1 h2
      rw [Bool.and_eq_true, beq_iff_eq] at hcond
      exact ⟨r2, hr2, hcond.1, (row_active_iff r2).1 hcond.2⟩
    · rintro ⟨h1, r2, hr2, hu, hact⟩
      refine ⟨h1, List.any_eq_true.2 ⟨r2, hr2, ?_⟩⟩
      rw [Bool.and_eq_true, beq_iff_eq]
      exact ⟨hu, (row_active_iff r2).2 hact⟩
  constructor
  · intro u
    constructor
    · rintro ⟨r, hr, hru⟩
      obtain ⟨_, r2, hr2, hu2, hact⟩ := (hmem r).1 hr
      exact ⟨r2, hr2, hu2.trans hru, hact⟩
    · rintro ⟨r, hr, hru, hact⟩
      exact ⟨r, (hmem r).2 ⟨hr, r, hr, rfl, hact⟩, hru⟩
  · intro r hr hex
    obtain ⟨r2, hr2, hu2, hact⟩ := hex
    exact (hmem r).2 ⟨hr, r2, hr2, hu2, hact⟩

/-- A row at a key without punches but with a makeup-dict entry
merges the hours and note of the entry, is a day off, and totals the
makeup hours alone. -/
theorem build_row_makeup {db : DB} {f : SummaryFilters} {u d : Nat}
    {mrow : MakeupRow} (hnp : (u, d) ∉ punch_keys db f)
    (hmk : makeup_lookup db f u d = some mrow) :
    (build_row db f u d).makeup_hours = mrow.hours ∧
    (build_row db f u d).makeup_note = mrow.note ∧
    (build_row db f u d).is_day_off = true ∧
    (build_row db f u d).total_hours =
      (if mrow.hours = 0 then none else some (round2 mrow.hours)) := by
  unfold build_row
  rw [if_neg hnp, hmk]
  refine ⟨rfl, rfl, rfl, ?_⟩
  simp [empty_metrics]

/-- Claim C7: a key carrying a makeup adjustment but no punches gets a
synthesized empty-punch row (null check-in/out, zero late and early
leave, null worked hours, day off) with the hours and note of the
adjustment merged in and the total equal to the makeup hours; a
positive adjustment also keeps the row in the final output. -/
theorem makeup_only_rows_C7 (db : DB) (f : SummaryFilters) (u d : Nat)
    (mrow : MakeupRow) (hmk : makeup_lookup db f u d = some mrow)
    (hnp : (u, d) ∉ punch_keys db f) :
    ∃ r ∈ summary_rows db f, r.user_id = u ∧ r.date = d ∧
      r.check_in = none ∧ r.check_out = none ∧
      r.late_mins = 0 ∧ r.early_leave_mins = 0 ∧
      r.working_hours = none ∧ r.is_day_off = true ∧
      r.makeup_hours = mrow.hours ∧ r.makeup_note = mrow.note ∧
      r.total_hours = (if mrow.hours = 0 then none else some (round2 mrow.hours)) ∧
      (0 < mrow.hours → r ∈ get_daily_summary db f) := by
  have hfind := List.find?_some hmk
  have hmemrev := List.mem_of_find?_eq_some hmk
  rw [List.mem_reverse] at hmemrev
  simp only [Bool.and_eq_true, beq_iff_eq] at hfind
  have hkey : (u, d) ∈ makeup_keys db f := by
    unfold makeup_keys
    exact List.mem_map.2 ⟨mrow, hmemrev, by rw [hfind.1, hfind.2]⟩
  have hbase := makeup_keys_sub_base hkey
  have hu : u ∈ active_users db f := mem_active_users_of_base hbase
  have hd : d ∈ user_dates db f u := mem_user_dates (mem_all_keys_of_base hbase)
  have hne : ¬base_keys db f = [] := List.ne_nil_of_mem hbase
  have hrow := mem_summary_rows hu hd hne
  obtain ⟨h1, h2, h3, h4, h5⟩ := build_row_no_punch hnp
  obtain ⟨m1, m2, m3, m4⟩ := build_row_makeup hnp hmk
  refine ⟨build_row db f u d, hrow, rfl, rfl, h1, h2, h4, h5, h3, m3, m1, m2, m4, ?_⟩
  intro hpos
  refine mem_output_of_active hrow ⟨build_row db f u d, hrow, rfl, ?_⟩
  refine (row_active_iff _).2 (Or.inr ?_)
  rw [m1]
  exact hpos

/-- Witness for C7: a lone 4.0-hour adjustment on a punch-free date in
range yields the day-off row with makeup_hours = 4 and
total_hours = 4. -/
theorem makeup_only_rows_C7_witness :
    (makeup_lookup ⟨[], [], [⟨1, 0, 4, none⟩]⟩ ⟨none, some 0, some 0⟩ 1 0 =
        some ⟨1, 0, 4, none⟩ ∧
      ((1 : Nat), (0 : Nat)) ∉ punch_keys ⟨[], [], [⟨1, 0, 4, none⟩]⟩
        ⟨none, some 0, some 0⟩) ∧
    (∃ r ∈ summary_rows ⟨[], [], [⟨1, 0, 4, none⟩]⟩ ⟨none, some 0, some 0⟩,
      r.user_id = 1 ∧ r.date = 0 ∧
      r.check_in = none ∧ r.check_out = none ∧
      r.late_mins = 0 ∧ r.early_leave_mins = 0 ∧
      r.working_hours = none ∧ r.is_day_off = true ∧
      r.makeup_hours = (⟨1, 0, 4, none⟩ : MakeupRow).hours ∧
      r.makeup_note = (⟨1, 0, 4, none⟩ : MakeupRow).note ∧
      r.total_hours = (if (⟨1, 0, 4, none⟩ : MakeupRow).hours = 0 then none
        else some (round2 (⟨1, 0, 4, none⟩ : MakeupRow).hours)) ∧
      (0 < (⟨1, 0, 4, none⟩ : MakeupRow).hours →
        r ∈ get_daily_summary ⟨[], [], [⟨1, 0, 4, none⟩]⟩ ⟨none, some 0, some 0⟩)) :=
  ⟨⟨by decide, by decide⟩,
    makeup_only_rows_C7 ⟨[], [], [⟨1, 0, 4, none⟩]⟩ ⟨none, some 0, some 0⟩ 1 0
      ⟨1, 0, 4, none⟩ (by decide) (by decide)⟩

/-- Every row totals its own fields by the source rule. -/
theorem build_row_total (db : DB) (f : SummaryFilters) (u d : Nat) :
    (build_row db f u d).total_hours =
      if ((build_row db f u d).working_hours.getD 0 +
          (build_row db f u d).makeup_hours) = 0 then none
      else some (round2 ((build_row db f u d).working_hours.getD 0 +
          (build_row db f u d).makeup_hours)) := rfl

/-- Claim C8: every output row has
total_hours = round2(worked-or-0 + makeup), null exactly when that
sum is zero; in particular a day with no worked hours and an explicit
stored 0 makeup hours has null total_hours. -/
theorem total_hours_rule_C8 :
    (∀ (db : DB) (f : SummaryFilters), ∀ r ∈ get_daily_summary db f,
      r.total_hours =
        if (r.working_hours.getD 0 + r.makeup_hours) = 0 then none
        else some (round2 (r.working_hours.getD 0 + r.makeup_hours))) ∧
    (get_daily_summary
        ⟨[⟨1, ⟨0, 28800⟩, 0⟩, ⟨1, ⟨0, 61800⟩, 0⟩], [], [⟨1, 1, 0, some "zero"⟩]⟩
        ⟨none, none, none⟩).map
      (fun r => (r.date, r.working_hours, r.makeup_hours, r.total_hours))
      = [(0, some (817 / 100), 0, some (817 / 100)), (1, none, 0, none)] := by
  constructor
  · intro db f r hr
    rw [get_daily_summary_eq] at hr
    have hr2 : r ∈ summary_rows db f := List.mem_of_mem_filter hr
    obtain ⟨u, d, _, _, hrd⟩ := summary_rows_elim hr2
    subst hrd
    exact build_row_total db f u d
  · decide

end ZkPi
